import Mathlib

/-!
Shallow embedding of the streaming chat relay with incremental emergency
detection implemented by the `POST /api/arya/chat` handler in
`src/server/routes.ts` (the full handler with the six-phrase detection
set).  Pure string manipulation is translated directly; the event-driven
streaming loop is translated as a fold over the list of upstream chunk
contents; the Express response object is modelled as an explicit record
of the observable outputs (status code, headers, JSON body, stream
events, upstream call).
-/

namespace Prana

/-- One conversation turn, `{ role, content }` in the source.  Roles are
strings at runtime (the TypeScript `as "user" | "assistant"` cast has no
runtime effect). -/
structure Turn where
  role : String
  content : String
deriving DecidableEq, Repr

/-- The optional `userContext` object of the request body
(`{ name, role, conditions, allergies }`), every field optional
(`undefined`/`null` modelled as `none`). -/
structure UserContext where
  name : Option String
  role : Option String
  conditions : Option (List String)
  allergies : Option (List String)
deriving DecidableEq, Repr

/-- JavaScript `v || d` on an optional string: the default is taken when
the value is absent or the empty string (both falsy in JS). -/
def jsStringOr (v : Option String) (d : String) : String :=
  match v with
  | none => d
  | some s => if s = "" then d else s

/-- JavaScript `v?.join(", ") || d` on an optional string array: absent
array or empty join result (falsy) yields the default. -/
def jsJoinOr (v : Option (List String)) (d : String) : String :=
  match v with
  | none => d
  | some l => let j := String.intercalate ", " l; if j = "" then d else j

/-- The `User Context` block appended to the system prompt when
`userContext` is present (`routes.ts` lines 344-348); the template
literal spans actual newlines. -/
def contextBlock (uc : UserContext) : String :=
  "\n\nUser Context:\n- Name: " ++ jsStringOr uc.name "Unknown"
    ++ "\n- Role: " ++ jsStringOr uc.role "layperson"
    ++ "\n- Known conditions: " ++ jsJoinOr uc.conditions "None recorded"
    ++ "\n- Known allergies: " ++ jsJoinOr uc.allergies "None recorded"

/-- `enhancedSystemPrompt` (`routes.ts` lines 342-349): starts as
`systemPrompt || ""` and the context block is appended only when
`userContext` is truthy. -/
def enhanceSystemPrompt (systemPrompt : Option String)
    (userContext : Option UserContext) : String :=
  match userContext with
  | none => jsStringOr systemPrompt ""
  | some uc => jsStringOr systemPrompt "" ++ contextBlock uc

/-- `chatMessages` (`routes.ts` lines 355-361): the composed system turn
followed by `messages.slice(1)` re-built as `{ role, content }` pairs. -/
def composeMessages (enhancedSystemPrompt : String) (messages : List Turn) :
    List Turn :=
  { role := "system", content := enhancedSystemPrompt } ::
    (messages.drop 1).map (fun m => { role := m.role, content := m.content })

/-- JavaScript `String.prototype.toLowerCase` restricted to the ASCII
range, as `fullResponse.toLowerCase()` in the source. -/
def lowerString (s : String) : String :=
  ⟨s.data.map Char.toLower⟩

/-- `needle` is a prefix of `haystack` (character lists). -/
def isPrefixList : List Char → List Char → Bool
  | [], _ => true
  | _ :: _, [] => false
  | a :: as, b :: bs => a == b && isPrefixList as bs

/-- `haystack.includes(needle)` on character lists: some suffix of the
haystack starts with the needle. -/
def containsSub (needle : List Char) : List Char → Bool
  | [] => needle.isEmpty
  | c :: t => isPrefixList needle (c :: t) || containsSub needle t

/-- `haystack.includes(needle)` on strings. -/
def containsStr (needle haystack : String) : Bool :=
  containsSub needle.data haystack.data

/-- The six detection phrases of the handler (`routes.ts` lines 381-386),
in source order. -/
def emergencyPhrases : List String :=
  ["call 911", "emergency room", "seek immediate", "life-threatening",
   "call 112", "call 108"]

/-- The emergency scan (`routes.ts` lines 379-387): lowercase the entire
accumulated response and test each detection phrase as a substring, as
the disjunction of `lowerContent.includes(...)` calls in the source. -/
def detectEmergency (fullResponse : String) : Bool :=
  let lowerContent := lowerString fullResponse
  containsStr "call 911" lowerContent
    || containsStr "emergency room" lowerContent
    || containsStr "seek immediate" lowerContent
    || containsStr "life-threatening" lowerContent
    || containsStr "call 112" lowerContent
    || containsStr "call 108" lowerContent

/-- Events written to the response sink, one per `res.write` framing
`data: <json>`. -/
inductive Event where
  | content (s : String)
  | emergency
  | done
  | error (msg : String)
deriving DecidableEq, Repr

/-- One iteration of the streaming loop (`routes.ts` lines 373-391) on
the state `(fullResponse, events written so far)`.  The chunk is the
extracted `chunk.choices[0]?.delta?.content || ""`; a falsy (empty)
chunk is skipped; otherwise the chunk is appended to `fullResponse`, a
`content` event is written, and an `emergency` event is written whenever
the accumulated lowercased text contains a detection phrase. -/
def stepChunk : String × List Event → String → String × List Event
  | (fullResponse, events), chunk =>
    if chunk = "" then (fullResponse, events)
    else if detectEmergency (fullResponse ++ chunk) = true then
      (fullResponse ++ chunk, events ++ [Event.content chunk, Event.emergency])
    else
      (fullResponse ++ chunk, events ++ [Event.content chunk])

/-- The events written by the streaming loop for a given sequence of
upstream chunk contents, starting from `fullResponse = ""` and an empty
sink. -/
def relayEvents (chunks : List String) : List Event :=
  (List.foldl stepChunk ("", []) chunks).2

/-- Concatenation of all chunk contents, in arrival order. -/
def concatChunks : List String → String
  | [] => ""
  | c :: rest => c ++ concatChunks rest

/-- Recursive presentation of the events generated by the streaming loop
from an already-accumulated response `full`; proved equal to the fold in
`relayEvents_eq_genEvents`. -/
def genEvents (full : String) : List String → List Event
  | [] => []
  | c :: rest =>
    if c = "" then genEvents full rest
    else if detectEmergency (full ++ c) = true then
      Event.content c :: Event.emergency :: genEvents (full ++ c) rest
    else
      Event.content c :: genEvents (full ++ c) rest

/-- The fragments carried by the `content` events of an event list, in
order. -/
def contentsOf (evs : List Event) : List String :=
  evs.filterMap (fun e => match e with
    | Event.content s => some s
    | _ => none)

/-- A request-body `messages` field value: a JSON array of turns, or any
other JSON value (recording only its JS truthiness). -/
inductive JsValue where
  | array (elems : List Turn)
  | other (truthy : Bool)
deriving DecidableEq, Repr

/-- JS truthiness of the optional `messages` field (arrays, including
the empty array, are truthy). -/
def jsTruthyOpt : Option JsValue → Bool
  | none => false
  | some (JsValue.array _) => true
  | some (JsValue.other t) => t

/-- `Array.isArray(messages)`. -/
def isArrayOpt : Option JsValue → Bool
  | some (JsValue.array _) => true
  | _ => false

/-- The validation guard `!messages || !Array.isArray(messages)`
(`routes.ts` line 338). -/
def messagesRejected (m : Option JsValue) : Bool :=
  !jsTruthyOpt m || !isArrayOpt m

/-- The turn list of an array-valued `messages` field (unused on the
rejection path). -/
def getMessages : Option JsValue → List Turn
  | some (JsValue.array l) => l
  | _ => []

/-- The parsed request body `{ messages, systemPrompt, userContext }`. -/
structure RequestBody where
  messages : Option JsValue
  systemPrompt : Option String
  userContext : Option UserContext
deriving DecidableEq, Repr

/-- Behaviour of the upstream provider for one request: the chunk
contents it delivers, followed either by a normal end of stream
(`errored = false`) or by a raised error (`errored = true`).  A failure
of the `create` call itself is the case `chunks = [], errored = true`. -/
structure Upstream where
  chunks : List String
  errored : Bool
deriving DecidableEq, Repr

/-- Observable outcome of one handler invocation: final status code,
whether the event-stream headers were set, whether the upstream call was
made and with which outbound turns, the single JSON error body (if any),
and the events written to the stream. -/
structure HandlerOutput where
  status : Nat
  headersSet : Bool
  upstreamCalled : Bool
  outbound : List Turn
  jsonBody : Option String
  events : List Event
deriving DecidableEq, Repr

/-- The `POST /api/arya/chat` handler (`routes.ts` lines 334-404).
Validation rejects with 400 before headers are set and before any
upstream call; otherwise the system prompt is enhanced, headers are set,
the composed turns are sent upstream, and the streaming loop runs.  On a
normal end of stream a `done` event is written.  If the upstream raises
and nothing has been written yet (`res.headersSent` false, i.e. no event
was ever flushed) the handler answers with a single 500 JSON document;
if events were already written it appends an in-band `error` event and
closes the stream without touching the status code. -/
def handle (req : RequestBody) (up : Upstream) : HandlerOutput :=
  if messagesRejected req.messages = true then
    { status := 400, headersSet := false, upstreamCalled := false,
      outbound := [], jsonBody := some "Messages array is required",
      events := [] }
  else
    let messages := getMessages req.messages
    let enhancedSystemPrompt :=
      enhanceSystemPrompt req.systemPrompt req.userContext
    let chatMessages := composeMessages enhancedSystemPrompt messages
    let evs := relayEvents up.chunks
    if up.errored = true then
      if evs = [] then
        { status := 500, headersSet := true, upstreamCalled := true,
          outbound := chatMessages,
          jsonBody := some "Failed to process chat request", events := [] }
      else
        { status := 200, headersSet := true, upstreamCalled := true,
          outbound := chatMessages, jsonBody := none,
          events := evs ++ [Event.error "Failed to get response"] }
    else
      { status := 200, headersSet := true, upstreamCalled := true,
        outbound := chatMessages, jsonBody := none,
        events := evs ++ [Event.done] }

/-! ### String helper lemmas -/

theorem strData_append (a b : String) : (a ++ b).data = a.data ++ b.data := by
  cases a; cases b; rfl

theorem strExt {a b : String} (h : a.data = b.data) : a = b := by
  cases a; cases b; exact congrArg String.mk h

theorem strData_empty : ("" : String).data = [] := rfl

theorem strAppend_assoc (a b c : String) : (a ++ b) ++ c = a ++ (b ++ c) := by
  apply strExt; simp [strData_append]

theorem strEmpty_append (a : String) : "" ++ a = a := by
  apply strExt; simp [strData_append, strData_empty]

theorem strAppend_empty (a : String) : a ++ "" = a := by
  apply strExt; simp [strData_append, strData_empty]

theorem lowerString_data (s : String) :
    (lowerString s).data = s.data.map Char.toLower := rfl

theorem lowerString_append (a b : String) :
    lowerString (a ++ b) = lowerString a ++ lowerString b := by
  apply strExt
  simp [lowerString_data, strData_append]

/-! ### Substring (includes) lemmas -/

theorem isPrefixList_append : ∀ (n hs ts : List Char),
    isPrefixList n hs = true → isPrefixList n (hs ++ ts) = true
  | [], _, _, _ => rfl
  | _ :: _, [], _, h => by simp [isPrefixList] at h
  | a :: as, b :: bs, ts, h => by
    simp only [isPrefixList, Bool.and_eq_true, beq_iff_eq] at h
    simp only [List.cons_append, isPrefixList, Bool.and_eq_true, beq_iff_eq]
    exact ⟨h.1, isPrefixList_append as bs ts h.2⟩

theorem containsSub_nil : ∀ (l : List Char), containsSub [] l = true
  | [] => rfl
  | _ :: t => by simp [containsSub, isPrefixList]

theorem containsSub_append_left : ∀ (n hs ts : List Char),
    containsSub n hs = true → containsSub n (hs ++ ts) = true
  | n, [], ts, h => by
    have hn : n = [] := by
      cases n with
      | nil => rfl
      | cons a as => simp [containsSub, List.isEmpty] at h
    subst hn; exact containsSub_nil ts
  | n, c :: t, ts, h => by
    simp only [containsSub, Bool.or_eq_true] at h
    simp only [List.cons_append, containsSub, Bool.or_eq_true]
    rcases h with h | h
    · exact Or.inl (isPrefixList_append n (c :: t) ts h)
    · exact Or.inr (containsSub_append_left n t ts h)

theorem containsSub_append_right : ∀ (n ts hs : List Char),
    containsSub n ts = true → containsSub n (hs ++ ts) = true
  | _, _, [], h => h
  | n, ts, c :: hs, h => by
    simp only [List.cons_append, containsSub, Bool.or_eq_true]
    exact Or.inr (containsSub_append_right n ts hs h)

theorem containsStr_append_left (n a b : String)
    (h : containsStr n a = true) : containsStr n (a ++ b) = true := by
  simp only [containsStr, strData_append]
  exact containsSub_append_left _ _ _ h

theorem containsStr_append_right (n a b : String)
    (h : containsStr n b = true) : containsStr n (a ++ b) = true := by
  simp only [containsStr, strData_append]
  exact containsSub_append_right _ _ _ h

/-! ### Detection lemmas -/

theorem detect_eq_any (t : String) :
    detectEmergency t
      = emergencyPhrases.any (fun p => containsStr p (lowerString t)) := by
  simp [detectEmergency, emergencyPhrases, List.any_cons, List.any_nil,
    Bool.or_assoc, Bool.or_false]

theorem detect_mono (a b : String) (h : detectEmergency a = true) :
    detectEmergency (a ++ b) = true := by
  rw [detect_eq_any] at h ⊢
  rw [List.any_eq_true] at h ⊢
  obtain ⟨p, hp, hc⟩ := h
  refine ⟨p, hp, ?_⟩
  rw [lowerString_append]
  exact containsStr_append_left _ _ _ hc

/-! ### Streaming-loop lemmas -/

theorem stepChunk_skip (full : String) (evs : List Event) :
    stepChunk (full, evs) "" = (full, evs) := by
  simp [stepChunk]

theorem stepChunk_hit {c : String} (hc : ¬ c = "") {full : String}
    (hd : detectEmergency (full ++ c) = true) (evs : List Event) :
    stepChunk (full, evs) c
      = (full ++ c, evs ++ [Event.content c, Event.emergency]) := by
  simp [stepChunk, hc, hd]

theorem stepChunk_miss {c : String} (hc : ¬ c = "") {full : String}
    (hd : ¬ detectEmergency (full ++ c) = true) (evs : List Event) :
    stepChunk (full, evs) c = (full ++ c, evs ++ [Event.content c]) := by
  simp [stepChunk, hc, hd]

theorem genEvents_skip (full : String) (rest : List String) :
    genEvents full ("" :: rest) = genEvents full rest := by
  simp [genEvents]

theorem genEvents_hit {c : String} (hc : ¬ c = "") {full : String}
    (hd : detectEmergency (full ++ c) = true) (rest : List String) :
    genEvents full (c :: rest)
      = Event.content c :: Event.emergency :: genEvents (full ++ c) rest := by
  simp [genEvents, hc, hd]

theorem genEvents_miss {c : String} (hc : ¬ c = "") {full : String}
    (hd : ¬ detectEmergency (full ++ c) = true) (rest : List String) :
    genEvents full (c :: rest)
      = Event.content c :: genEvents (full ++ c) rest := by
  simp [genEvents, hc, hd]

theorem concatChunks_cons (c : String) (rest : List String) :
    concatChunks (c :: rest) = c ++ concatChunks rest := rfl

theorem relay_fst : ∀ (chunks : List String) (full : String) (evs : List Event),
    (List.foldl stepChunk (full, evs) chunks).1 = full ++ concatChunks chunks
  | [], full, evs => by simp [concatChunks, strAppend_empty]
  | c :: rest, full, evs => by
    rw [List.foldl_cons]
    by_cases hc : c = ""
    · subst hc
      rw [stepChunk_skip, relay_fst rest full evs, concatChunks_cons,
        strEmpty_append]
    · by_cases hd : detectEmergency (full ++ c) = true
      · rw [stepChunk_hit hc hd evs, relay_fst rest (full ++ c) _,
          concatChunks_cons, strAppend_assoc]
      · rw [stepChunk_miss hc hd evs, relay_fst rest (full ++ c) _,
          concatChunks_cons, strAppend_assoc]

theorem relay_snd : ∀ (chunks : List String) (full : String) (evs : List Event),
    (List.foldl stepChunk (full, evs) chunks).2 = evs ++ genEvents full chunks
  | [], full, evs => by simp [genEvents]
  | c :: rest, full, evs => by
    rw [List.foldl_cons]
    by_cases hc : c = ""
    · subst hc
      rw [stepChunk_skip, relay_snd rest full evs, genEvents_skip]
    · by_cases hd : detectEmergency (full ++ c) = true
      · rw [stepChunk_hit hc hd evs, relay_snd rest (full ++ c) _,
          genEvents_hit hc hd rest]
        simp
      · rw [stepChunk_miss hc hd evs, relay_snd rest (full ++ c) _,
          genEvents_miss hc hd rest]
        simp

theorem relayEvents_eq_genEvents (chunks : List String) :
    relayEvents chunks = genEvents "" chunks := by
  rw [relayEvents, relay_snd]
  simp

theorem genEvents_append : ∀ (xs ys : List String) (full : String),
    genEvents full (xs ++ ys)
      = genEvents full xs ++ genEvents (full ++ concatChunks xs) ys
  | [], ys, full => by
    simp [genEvents, show concatChunks [] = "" from rfl, strAppend_empty]
  | c :: xs, ys, full => by
    by_cases hc : c = ""
    · subst hc
      rw [List.cons_append, genEvents_skip, genEvents_skip,
        genEvents_append xs ys full, concatChunks_cons, strEmpty_append]
    · by_cases hd : detectEmergency (full ++ c) = true
      · rw [List.cons_append, genEvents_hit hc hd (xs ++ ys),
          genEvents_hit hc hd xs, genEvents_append xs ys (full ++ c),
          concatChunks_cons, ← strAppend_assoc]
        simp
      · rw [List.cons_append, genEvents_miss hc hd (xs ++ ys),
          genEvents_miss hc hd xs, genEvents_append xs ys (full ++ c),
          concatChunks_cons, ← strAppend_assoc]
        simp

theorem contentsOf_nil : contentsOf [] = [] := rfl

theorem contentsOf_cons_content (s : String) (evs : List Event) :
    contentsOf (Event.content s :: evs) = s :: contentsOf evs := rfl

theorem contentsOf_cons_emergency (evs : List Event) :
    contentsOf (Event.emergency :: evs) = contentsOf evs := rfl

theorem contentsOf_genEvents : ∀ (chunks : List String) (full : String),
    contentsOf (genEvents full chunks)
      = chunks.filter (fun c => !decide (c = ""))
  | [], full => by simp [genEvents, contentsOf]
  | c :: rest, full => by
    by_cases hc : c = ""
    · subst hc
      rw [genEvents_skip, contentsOf_genEvents rest full]
      simp [List.filter_cons]
    · by_cases hd : detectEmergency (full ++ c) = true
      · rw [genEvents_hit hc hd rest, contentsOf_cons_content,
          contentsOf_cons_emergency, contentsOf_genEvents rest (full ++ c)]
        simp [List.filter_cons, hc]
      · rw [genEvents_miss hc hd rest, contentsOf_cons_content,
          contentsOf_genEvents rest (full ++ c)]
        simp [List.filter_cons, hc]

theorem emergency_mem_detect : ∀ (chunks : List String) (full : String),
    Event.emergency ∈ genEvents full chunks →
    detectEmergency (full ++ concatChunks chunks) = true
  | [], full => by simp [genEvents]
  | c :: rest, full => by
    intro hmem
    by_cases hc : c = ""
    · subst hc
      rw [concatChunks_cons, ← strAppend_assoc, strAppend_empty]
      exact emergency_mem_detect rest full (by rwa [genEvents_skip] at hmem)
    · rw [concatChunks_cons, ← strAppend_assoc]
      by_cases hd : detectEmergency (full ++ c) = true
      · exact detect_mono _ _ hd
      · rw [genEvents_miss hc hd rest, List.mem_cons] at hmem
        rcases hmem with h | h
        · exact absurd h (by simp)
        · exact emergency_mem_detect rest (full ++ c) h

theorem genEvents_eq_nil : ∀ (chunks : List String) (full : String),
    chunks.filter (fun c => !decide (c = "")) = [] →
    genEvents full chunks = []
  | [], _, _ => rfl
  | c :: rest, full, h => by
    by_cases hc : c = ""
    · subst hc
      rw [genEvents_skip]
      exact genEvents_eq_nil rest full (by simpa [List.filter_cons] using h)
    · simp [List.filter_cons, hc] at h

theorem relayEvents_nil_iff (chunks : List String) :
    relayEvents chunks = [] ↔ contentsOf (relayEvents chunks) = [] := by
  constructor
  · intro h; rw [h]; rfl
  · intro h
    rw [relayEvents_eq_genEvents] at h ⊢
    rw [contentsOf_genEvents chunks ""] at h
    exact genEvents_eq_nil _ _ h

/-- Rebuilding a turn as a `{ role, content }` pair is the identity. -/
theorem turnMap_id : ∀ (l : List Turn),
    l.map (fun m => ({ role := m.role, content := m.content } : Turn)) = l
  | [] => rfl
  | m :: l => by cases m; simp [turnMap_id l]

/-! ### Claims -/

/-- C1, counterexample: the claim says `emergency` is emitted at most once
per stream, but the handler keeps no one-shot latch: once the accumulated
buffer matches, every later non-empty fragment re-triggers the emission.
With fragments `"call 911"` then `"!"`, the stream carries two `emergency`
events before the terminal `done`. -/
theorem C1_counterexample :
    (handle ⟨some (JsValue.array []), none, none⟩
        ⟨["call 911", "!"], false⟩).events =
      [Event.content "call 911", Event.emergency, Event.content "!",
       Event.emergency, Event.done] := by
  decide

/-- C1 (amended): once `emergency` has been written, every subsequent
non-empty fragment causes a further `emergency` event immediately after
its `content` event — the detection re-fires instead of being latched. -/
theorem C1_emergency_refires (chunks : List String) (f : String)
    (hf : ¬ f = "") (h : Event.emergency ∈ relayEvents chunks) :
    relayEvents (chunks ++ [f])
      = relayEvents chunks ++ [Event.content f, Event.emergency] := by
  rw [relayEvents_eq_genEvents] at h
  rw [relayEvents_eq_genEvents, relayEvents_eq_genEvents]
  have hdet : detectEmergency ("" ++ concatChunks chunks) = true :=
    emergency_mem_detect chunks "" h
  rw [strEmpty_append] at hdet
  rw [genEvents_append, strEmpty_append]
  congr 1
  have hd2 : detectEmergency (concatChunks chunks ++ f) = true :=
    detect_mono _ _ hdet
  rw [genEvents_hit hf hd2 []]
  rfl

/-- C1 witness: instantiates `C1_emergency_refires` on the fragments
`["call 911"]` followed by `"!"`. -/
theorem C1_emergency_refires_witness :
    relayEvents (["call 911"] ++ ["!"])
      = relayEvents ["call 911"] ++ [Event.content "!", Event.emergency] :=
  C1_emergency_refires ["call 911"] "!" (by decide) (by decide)

/-- C2, counterexample: the claim positions the (unique) `emergency` event
before the `content` event of any later fragment, but with fragments
`"seek immediate"` then `"ly"` an `emergency` event occurs at index 3,
after the later fragment's `content` event at index 2. -/
theorem C2_counterexample :
    (relayEvents ["seek immediate", "ly"]).get? 2
        = some (Event.content "ly") ∧
    (relayEvents ["seek immediate", "ly"]).get? 3 = some Event.emergency := by
  decide

/-- C2 (amended): the outbound events preserve fragment arrival order (the
content events are exactly the non-empty fragments in order), and the
FIRST `emergency` event is emitted immediately after the content event of
the first fragment that makes the accumulated buffer match — no
`emergency` occurs before it; but further `emergency` events follow each
later matching fragment, so it is not before every later content event. -/
theorem C2_first_emission_position (chunks : List String) (f : String)
    (hf : ¬ f = "")
    (hpre : detectEmergency (concatChunks chunks) = false)
    (hpost : detectEmergency (concatChunks chunks ++ f) = true) :
    contentsOf (relayEvents (chunks ++ [f]))
        = (chunks ++ [f]).filter (fun c => !decide (c = "")) ∧
    Event.emergency ∉ relayEvents chunks ∧
    relayEvents (chunks ++ [f])
        = relayEvents chunks ++ [Event.content f, Event.emergency] := by
  refine ⟨?_, ?_, ?_⟩
  · rw [relayEvents_eq_genEvents]
    exact contentsOf_genEvents _ _
  · rw [relayEvents_eq_genEvents]
    intro hmem
    have hdet := emergency_mem_detect chunks "" hmem
    rw [strEmpty_append] at hdet
    rw [hpre] at hdet
    exact Bool.false_ne_true hdet
  · rw [relayEvents_eq_genEvents, relayEvents_eq_genEvents,
      genEvents_append, strEmpty_append]
    congr 1
    rw [genEvents_hit hf hpost []]
    rfl

/-- C2 witness: instantiates `C2_first_emission_position` on the spec's
scenario-2 fragments `["You should"]` followed by `" call 911"`. -/
theorem C2_first_emission_position_witness :
    contentsOf (relayEvents (["You should"] ++ [" call 911"]))
        = (["You should"] ++ [" call 911"]).filter
            (fun c => !decide (c = "")) ∧
    Event.emergency ∉ relayEvents ["You should"] ∧
    relayEvents (["You should"] ++ [" call 911"])
        = relayEvents ["You should"]
            ++ [Event.content " call 911", Event.emergency] :=
  C2_first_emission_position ["You should"] " call 911"
    (by decide) (by decide) (by decide)

/-- C3, counterexample: the claim says the composed system turn carries
the four labeled fields with defaults when `userContext` is absent, but
the handler appends the `User Context` block only when `userContext` is
present: with systemPrompt `"be concise"` and no userContext the composed
system turn is just `"be concise"`, not the claimed string. -/
theorem C3_counterexample :
    enhanceSystemPrompt (some "be concise") none = "be concise" ∧
    ¬ enhanceSystemPrompt (some "be concise") none =
      "be concise\n\nUser Context:\n- Name: Unknown\n- Role: layperson\n- Known conditions: None recorded\n- Known allergies: None recorded" := by
  decide

/-- C3 (amended): when `userContext` is present the composed system turn
contains the four labeled fields, with defaults `Unknown` / `layperson` /
`None recorded` / `None recorded` for individually absent fields; when
`userContext` is absent the composed system turn is the bare system
prompt (`systemPrompt || ""`); in particular with systemPrompt
`"be concise"` and an empty userContext object the composed turn equals
the claimed string. -/
theorem C3_context_fields (sp : Option String) (uc : UserContext) :
    containsStr "- Name: " (enhanceSystemPrompt sp (some uc)) = true ∧
    containsStr "- Role: " (enhanceSystemPrompt sp (some uc)) = true ∧
    containsStr "- Known conditions: "
        (enhanceSystemPrompt sp (some uc)) = true ∧
    containsStr "- Known allergies: "
        (enhanceSystemPrompt sp (some uc)) = true ∧
    enhanceSystemPrompt sp none = jsStringOr sp "" ∧
    enhanceSystemPrompt sp (some ⟨none, none, none, none⟩)
        = jsStringOr sp ""
            ++ "\n\nUser Context:\n- Name: Unknown\n- Role: layperson\n- Known conditions: None recorded\n- Known allergies: None recorded" ∧
    enhanceSystemPrompt (some "be concise") (some ⟨none, none, none, none⟩)
        = "be concise\n\nUser Context:\n- Name: Unknown\n- Role: layperson\n- Known conditions: None recorded\n- Known allergies: None recorded" := by
  refine ⟨?_, ?_, ?_, ?_, rfl, ?_, by decide⟩
  · show containsStr _ (jsStringOr sp "" ++ contextBlock uc) = true
    apply containsStr_append_right
    show containsStr _ (_ ++ jsJoinOr uc.allergies "None recorded") = true
    apply containsStr_append_left
    apply containsStr_append_left
    apply containsStr_append_left
    apply containsStr_append_left
    apply containsStr_append_left
    apply containsStr_append_left
    apply containsStr_append_left
    decide
  · show containsStr _ (jsStringOr sp "" ++ contextBlock uc) = true
    apply containsStr_append_right
    apply containsStr_append_left
    apply containsStr_append_left
    apply containsStr_append_left
    apply containsStr_append_left
    apply containsStr_append_left
    apply containsStr_append_right
    decide
  · show containsStr _ (jsStringOr sp "" ++ contextBlock uc) = true
    apply containsStr_append_right
    apply containsStr_append_left
    apply containsStr_append_left
    apply containsStr_append_left
    apply containsStr_append_right
    decide
  · show containsStr _ (jsStringOr sp "" ++ contextBlock uc) = true
    apply containsStr_append_right
    apply containsStr_append_left
    apply containsStr_append_right
    decide
  · show jsStringOr sp "" ++ contextBlock ⟨none, none, none, none⟩ = _
    congr 1

/-- C4: if the upstream fails before any `content` event has been
written, the relay responds with a single JSON error document and status
500; if it fails after at least one `content` event, the relay keeps
status 200 and appends an in-band `error` event to the already-open
stream — the status code never changes mid-stream. -/
theorem C4_failure_commit_point (req : RequestBody) (up : Upstream)
    (hv : messagesRejected req.messages = false) (he : up.errored = true) :
    (contentsOf (relayEvents up.chunks) = [] →
      (handle req up).status = 500 ∧
      (handle req up).jsonBody = some "Failed to process chat request" ∧
      (handle req up).events = []) ∧
    (¬ contentsOf (relayEvents up.chunks) = [] →
      (handle req up).status = 200 ∧
      (handle req up).jsonBody = none ∧
      (handle req up).events
        = relayEvents up.chunks ++ [Event.error "Failed to get response"]) := by
  constructor
  · intro h0
    have hnil : relayEvents up.chunks = [] := (relayEvents_nil_iff _).mpr h0
    simp [handle, hv, he, hnil]
  · intro h1
    have hne : ¬ relayEvents up.chunks = [] := by
      intro hh
      exact h1 ((relayEvents_nil_iff _).mp hh)
    simp [handle, hv, he, hne]

/-- C4 witness: a valid request whose upstream delivers `"hi"` and then
errors yields a 200 stream ending in the in-band `error` event. -/
theorem C4_failure_commit_point_witness :
    (handle ⟨some (JsValue.array []), none, none⟩ ⟨["hi"], true⟩).status
        = 200 ∧
    (handle ⟨some (JsValue.array []), none, none⟩ ⟨["hi"], true⟩).jsonBody
        = none ∧
    (handle ⟨some (JsValue.array []), none, none⟩ ⟨["hi"], true⟩).events
        = relayEvents ["hi"] ++ [Event.error "Failed to get response"] :=
  (C4_failure_commit_point ⟨some (JsValue.array []), none, none⟩
      ⟨["hi"], true⟩ (by decide) (by decide)).2 (by decide)

/-- C5: whether the scanner matches depends only on the concatenation of
the fragments received so far, not on the fragment boundaries; and the
phrase `"call 911"` split as `"call "` then `"911"` is detected at the
fragment completing the phrase. -/
theorem C5_split_invariance (xs ys : List String)
    (h : concatChunks xs = concatChunks ys) :
    detectEmergency (List.foldl stepChunk ("", []) xs).1
        = detectEmergency (List.foldl stepChunk ("", []) ys).1 ∧
    relayEvents ["call ", "911"]
        = [Event.content "call ", Event.content "911", Event.emergency] := by
  constructor
  · rw [relay_fst, relay_fst, strEmpty_append, strEmpty_append, h]
  · decide

/-- C5 witness: instantiates `C5_split_invariance` with the split
`["call ", "911"]` against the unsplit `["call 911"]`. -/
theorem C5_split_invariance_witness :
    detectEmergency (List.foldl stepChunk ("", []) ["call ", "911"]).1
        = detectEmergency (List.foldl stepChunk ("", []) ["call 911"]).1 ∧
    relayEvents ["call ", "911"]
        = [Event.content "call ", Event.content "911", Event.emergency] :=
  C5_split_invariance ["call ", "911"] ["call 911"] (by decide)

/-- C6: the detection set contains the six phrases `call 911`,
`call 112`, `call 108`, `emergency room`, `seek immediate`,
`life-threatening`, and any accumulated text containing one of the
phrases (case-insensitively, i.e. after lowercasing) is reported as a
match. -/
theorem C6_detection_set (t p : String) (hp : p ∈ emergencyPhrases)
    (h : containsStr p (lowerString t) = true) :
    detectEmergency t = true ∧
    "call 911" ∈ emergencyPhrases ∧ "call 112" ∈ emergencyPhrases ∧
    "call 108" ∈ emergencyPhrases ∧ "emergency room" ∈ emergencyPhrases ∧
    "seek immediate" ∈ emergencyPhrases ∧
    "life-threatening" ∈ emergencyPhrases := by
  refine ⟨?_, by decide, by decide, by decide, by decide, by decide,
    by decide⟩
  rw [detect_eq_any]
  exact List.any_eq_true.mpr ⟨p, hp, h⟩

/-- C6 witness: `"Please CALL 911 now."` contains `"call 911"` after
lowercasing, so the scanner matches. -/
theorem C6_detection_set_witness :
    detectEmergency "Please CALL 911 now." = true ∧
    "call 911" ∈ emergencyPhrases ∧ "call 112" ∈ emergencyPhrases ∧
    "call 108" ∈ emergencyPhrases ∧ "emergency room" ∈ emergencyPhrases ∧
    "seek immediate" ∈ emergencyPhrases ∧
    "life-threatening" ∈ emergencyPhrases :=
  C6_detection_set "Please CALL 911 now." "call 911" (by decide) (by decide)

/-- C7: a missing or non-array `messages` field is rejected with status
400 and body `Messages array is required`, before the stream headers are
set and without any upstream call or stream event. -/
theorem C7_messages_validation (req : RequestBody) (up : Upstream)
    (h : isArrayOpt req.messages = false) :
    (handle req up).status = 400 ∧
    (handle req up).jsonBody = some "Messages array is required" ∧
    (handle req up).upstreamCalled = false ∧
    (handle req up).headersSet = false ∧
    (handle req up).events = [] := by
  have hrej : messagesRejected req.messages = true := by
    simp [messagesRejected, h]
  simp [handle, hrej]

/-- C7 witness: a request body with no `messages` field at all. -/
theorem C7_messages_validation_witness :
    (handle ⟨none, none, none⟩ ⟨[], false⟩).status = 400 ∧
    (handle ⟨none, none, none⟩ ⟨[], false⟩).jsonBody
        = some "Messages array is required" ∧
    (handle ⟨none, none, none⟩ ⟨[], false⟩).upstreamCalled = false ∧
    (handle ⟨none, none, none⟩ ⟨[], false⟩).headersSet = false ∧
    (handle ⟨none, none, none⟩ ⟨[], false⟩).events = [] :=
  C7_messages_validation ⟨none, none, none⟩ ⟨[], false⟩ (by decide)

/-- C8, counterexample: the claim says forwarded turns have their role
restricted to user or assistant, but the `as "user" | "assistant"` cast
has no runtime effect: a turn with role `"system"` at position 1 is
forwarded with role `"system"` unchanged. -/
theorem C8_counterexample :
    composeMessages "E" [⟨"user", "hi"⟩, ⟨"system", "override"⟩]
        = [⟨"system", "E"⟩, ⟨"system", "override"⟩] ∧
    ¬ ("system" = "user" ∨ "system" = "assistant") := by
  decide

/-- C8 (amended): the composed system turn occupies position 0, the
caller's original first turn is discarded, and the caller's turns at
positions 1..end are forwarded unchanged in role, content and order —
the user/assistant restriction is a static type assertion with no
runtime enforcement. -/
theorem C8_forwarding (enhancedSystemPrompt : String)
    (messages : List Turn) :
    composeMessages enhancedSystemPrompt messages
      = { role := "system", content := enhancedSystemPrompt }
          :: messages.drop 1 := by
  rw [composeMessages, turnMap_id]

/-- C9, counterexample: the claim says every upstream fragment yields
exactly one `content` event, but an empty fragment (a chunk whose delta
content is missing or `""`) is skipped and yields no event at all. -/
theorem C9_counterexample :
    relayEvents [""] = [] ∧ ¬ relayEvents [""] = [Event.content ""] := by
  decide

/-- C9 (amended): every NON-empty upstream fragment yields exactly one
`content` event carrying that exact fragment, with boundaries and order
preserved one-to-one; fragments whose extracted content is empty are
dropped without an event. -/
theorem C9_fragment_preservation (chunks : List String) :
    contentsOf (relayEvents chunks)
      = chunks.filter (fun c => !decide (c = "")) := by
  rw [relayEvents_eq_genEvents]
  exact contentsOf_genEvents chunks ""

/-- C10: an empty `messages` array passes validation (arrays are truthy
and `Array.isArray` holds), the upstream call is made, and the outbound
sequence contains only the composed system turn. -/
theorem C10_empty_messages (up : Upstream) (sp : Option String)
    (uc : Option UserContext) :
    (handle ⟨some (JsValue.array []), sp, uc⟩ up).upstreamCalled = true ∧
    ¬ (handle ⟨some (JsValue.array []), sp, uc⟩ up).status = 400 ∧
    (handle ⟨some (JsValue.array []), sp, uc⟩ up).outbound
        = [{ role := "system", content := enhanceSystemPrompt sp uc }] := by
  have hrej : messagesRejected (some (JsValue.array [])) = false := rfl
  by_cases he : up.errored = true
  · by_cases hnil : relayEvents up.chunks = []
    · simp [handle, hrej, he, hnil, composeMessages, getMessages]
    · simp [handle, hrej, he, hnil, composeMessages, getMessages]
  · simp [handle, hrej, he, composeMessages, getMessages]

end Prana
